import Mathlib

/-!
Shallow embedding of the conversation backend of the chatgpt-clone MERN
repository (src/backend/models/Conversation.js, src/backend/routes/conversations.js
and the chat relay route in src/backend/server.js).

Modelling conventions:
* A MongoDB ObjectId is a `Nat`; the store is the list of persisted
  Conversation documents, in insertion order.
* Strings are Lean `String`s, but the string operations the source relies on
  (mongoose `trim` setters, `String.prototype.substring`, case-insensitive
  `$regex` matching) are implemented over the underlying character list so
  that every definition kernel-evaluates on concrete inputs.
* mongoose validation (`required`, `enum`, `maxlength`, `min`/`max`) is made
  explicit at the point where the source calls `save()` /
  `findOneAndUpdate(..., runValidators)`; a failed validation leaves the
  persisted store unchanged, exactly as a rejected `save()` does.
* `PUT /api/conversations/:id` builds `updates.settings = { ...updates.settings,
  ...settings }` (spreading the freshly created `updates` object, which has no
  `settings` key) and `$set`s it, so the stored `settings` subdocument is
  replaced by exactly the fields present in the request; fields absent from
  the request become absent in the store and read back as the schema defaults
  (temperature 0.7, maxTokens 1000).  Stored settings fields are therefore
  `Option` valued, with `none` meaning "path absent in the document".
  The temperature is stored in hundredths (70 = 0.7) — no claim does
  arithmetic on it, only presence/absence and range checks matter.
* The external LLM provider (`openai.chat.completions.create`) is an opaque
  function from the prepared `{role, content}` message list to either a reply
  string or a failure carrying the HTTP status the provider reported
  (`error.response?.status`).
-/

/-- Character-level lowercase conversion (ASCII, which is what the
case-insensitive `$regex` option does on the data this backend stores). -/
def lowerChar (c : Char) : Char :=
  if 'A' ≤ c ∧ c ≤ 'Z' then Char.ofNat (c.toNat + 32) else c

/-- Lowercase an entire character list. -/
def lowerList (l : List Char) : List Char := l.map lowerChar

/-- Whitespace test used by the `trim` schema setters. -/
def isWs (c : Char) : Bool := c == ' ' || c == '\t' || c == '\n' || c == '\r'

/-- Drop leading and trailing whitespace from a character list. -/
def trimList (l : List Char) : List Char :=
  ((l.dropWhile isWs).reverse.dropWhile isWs).reverse

/-- `String.prototype.trim`, as applied by the mongoose `trim: true` setters. -/
def trimS (s : String) : String := String.mk (trimList s.data)

/-- `String.prototype.substring(0, n)`. -/
def takeS (s : String) (n : Nat) : String := String.mk (s.data.take n)

/-- String length in characters. -/
def lenS (s : String) : Nat := s.data.length

/-- The query string `q` matches the text `hay` when `q` is a case-insensitive
substring of `hay` — the semantics of `{ $regex: q, $options: 'i' }` on a
metacharacter-free query. -/
def ciSub (needle hay : String) : Prop :=
  lowerList needle.data <:+: lowerList hay.data

instance (n h : String) : Decidable (ciSub n h) := by
  unfold ciSub
  infer_instance

/-- Equality on operation results is decidable, so that concrete runs can be
checked by evaluation. -/
instance {ε α : Type} [DecidableEq ε] [DecidableEq α] : DecidableEq (Except ε α) :=
  fun x y =>
    match x, y with
    | .ok a, .ok b =>
      if h : a = b then isTrue (by rw [h]) else isFalse (by simp [h])
    | .error a, .error b =>
      if h : a = b then isTrue (by rw [h]) else isFalse (by simp [h])
    | .ok _, .error _ => isFalse (by simp)
    | .error _, .ok _ => isFalse (by simp)

/-- Outward failure taxonomy of the service (HTTP 400 / 404 / 401 / 429 / 500
from the provider). -/
inductive ServiceError where
  | validationFailure
  | notFound
  | authFailure
  | rateLimited
  | providerError
deriving DecidableEq

/-- An embedded message subdocument (messageSchema in Conversation.js). -/
structure Message where
  role : String
  content : String
  timestamp : Nat
  tokens : Nat
  model : String
deriving DecidableEq

/-- The stored `settings` subdocument.  `none` models a path that is absent
from the persisted document (it reads back as the schema default). -/
structure SettingsDoc where
  temperature : Option Nat
  maxTokens : Option Nat
deriving DecidableEq

/-- A persisted Conversation document (conversationSchema in Conversation.js). -/
structure Conversation where
  id : Nat
  userId : Nat
  title : String
  messages : List Message
  isArchived : Bool
  isPinned : Bool
  tags : List String
  totalTokens : Nat
  model : String
  settings : SettingsDoc
  createdAt : Nat
  updatedAt : Nat
deriving DecidableEq

/-- Effective maxTokens: stored value, or the schema default 1000. -/
def effectiveMaxTokens (c : Conversation) : Nat := c.settings.maxTokens.getD 1000

/-- Effective temperature (hundredths): stored value, or the schema default 70. -/
def effectiveTemperature (c : Conversation) : Nat := c.settings.temperature.getD 70

/-- `Conversation.findOne({ _id: id, userId: owner })`. -/
def findConv : List Conversation → Nat → Nat → Option Conversation
  | [], _, _ => none
  | c :: t, id, owner =>
    if c.id = id ∧ c.userId = owner then some c else findConv t id owner

/-- Persisting a modified document: the stored document with this `_id` is
replaced by the new version (mongoose `save()` on a fetched document). -/
def replaceConv (store : List Conversation) (id : Nat) (c' : Conversation) :
    List Conversation :=
  store.map fun d => if d.id = id then c' else d

/-- `Conversation.findOneAndDelete({ _id: id, userId: owner })`: the first
matching document is removed. -/
def removeConv : List Conversation → Nat → Nat → List Conversation
  | [], _, _ => []
  | c :: t, id, owner =>
    if c.id = id ∧ c.userId = owner then t else c :: removeConv t id owner

/-- `conversation.addMessage(role, content, model)` (Conversation.js): pushes
a message (content trimmed by the schema setter, tokens defaulting to 0),
sets the aggregate's `model`, and saves (bumping `updatedAt`). -/
def appendRaw (c : Conversation) (role content mdl : String) (now : Nat) :
    Conversation :=
  { c with
    messages := c.messages ++
      [{ role := role, content := trimS content, timestamp := now,
         tokens := 0, model := mdl }]
    model := mdl
    updatedAt := now }

/-- The title text derived from a message: first 50 characters, plus an
ellipsis marker when the content is longer than 50 characters. -/
def deriveTitle (content : String) : String :=
  takeS content 50 ++ (if 50 < lenS content then "..." else "")

/-- `conversation.updateTitleFromFirstMessage()` (Conversation.js): rewrites
the title from the first user message, but only when the title is unset. -/
def updateTitleFromFirstMessage (c : Conversation) : Conversation :=
  match c.messages.find? (fun m => m.role == "user") with
  | some m => if c.title = "" then { c with title := deriveTitle m.content } else c
  | none => c

/-- Title validity at save time: `required` (nonempty after trimming) and
`maxlength: 100`. -/
def validTitle (t : String) : Prop := t ≠ "" ∧ lenS t ≤ 100

instance (t : String) : Decidable (validTitle t) := by
  unfold validTitle
  infer_instance

/-- `POST /api/conversations` (conversations.js): builds a document titled
`title || 'New Chat'`; when an initial message is provided it is appended as a
`user` message and `updateTitleFromFirstMessage` is invoked before the final
save.  A `newId` is the ObjectId generated for the document. -/
def createConv (store : List Conversation) (owner : Nat)
    (title : Option String) (initialMessage : Option String)
    (now newId : Nat) : Except ServiceError Conversation × List Conversation :=
  let t0 : String :=
    match title with
    | none => "New Chat"
    | some s => if s = "" then "New Chat" else trimS s
  let base : Conversation :=
    { id := newId, userId := owner, title := t0, messages := []
      isArchived := false, isPinned := false, tags := [], totalTokens := 0
      model := "gpt-4o-mini"
      settings := { temperature := some 70, maxTokens := some 1000 }
      createdAt := now, updatedAt := now }
  match initialMessage with
  | none =>
    if validTitle t0 then (.ok base, store ++ [base])
    else (.error .validationFailure, store)
  | some im =>
    if im = "" then
      if validTitle t0 then (.ok base, store ++ [base])
      else (.error .validationFailure, store)
    else if ¬ validTitle t0 ∨ trimS im = "" then (.error .validationFailure, store)
    else
      let c1 := appendRaw base "user" im "gpt-4o-mini" now
      let c2 := updateTitleFromFirstMessage c1
      (.ok c2, store ++ [c2])

/-- `GET /api/conversations/:id`. -/
def getConv (store : List Conversation) (owner id : Nat) :
    Except ServiceError Conversation :=
  match findConv store id owner with
  | none => .error .notFound
  | some c => .ok c

/-- The request body of `PUT /api/conversations/:id`: only the fields that are
present are applied. -/
structure SettingsPatch where
  temperature : Option Nat
  maxTokens : Option Nat
deriving DecidableEq

structure UpdatePatch where
  title : Option String
  tags : Option (List String)
  isArchived : Option Bool
  isPinned : Option Bool
  settings : Option SettingsPatch
deriving DecidableEq

/-- The all-absent request body. -/
def emptyPatch : UpdatePatch :=
  { title := none, tags := none, isArchived := none, isPinned := none,
    settings := none }

/-- Update validators (`runValidators: true`): a supplied title must be valid
after trimming, a supplied temperature must lie in the schema range [0, 2]
(stored in hundredths). -/
def validPatch (p : UpdatePatch) : Bool :=
  (p.title.all fun t => decide (validTitle (trimS t))) &&
  (p.settings.all fun s => s.temperature.all fun tp => decide (tp ≤ 200))

/-- Applying the `updates` object built by the PUT handler.  Note that the
handler computes `updates.settings = { ...updates.settings, ...settings }`,
spreading the empty `updates` object rather than the stored settings, and the
resulting object is `$set` wholesale: the stored subdocument afterwards holds
exactly the fields present in the request. -/
def applyUpdate (c : Conversation) (p : UpdatePatch) (now : Nat) : Conversation :=
  { c with
    title := match p.title with | none => c.title | some t => trimS t
    tags := match p.tags with | none => c.tags | some ts => ts.map trimS
    isArchived := p.isArchived.getD c.isArchived
    isPinned := p.isPinned.getD c.isPinned
    settings :=
      match p.settings with
      | none => c.settings
      | some s => { temperature := s.temperature, maxTokens := s.maxTokens }
    updatedAt := now }

/-- `PUT /api/conversations/:id` (mongoose casts and validates the update
before the query runs, so an invalid patch fails even when no document
matches). -/
def updateConv (store : List Conversation) (owner id : Nat)
    (p : UpdatePatch) (now : Nat) :
    Except ServiceError Conversation × List Conversation :=
  if validPatch p then
    match findConv store id owner with
    | none => (.error .notFound, store)
    | some c =>
      let c1 := applyUpdate c p now
      (.ok c1, replaceConv store id c1)
  else (.error .validationFailure, store)

/-- `DELETE /api/conversations/:id`. -/
def deleteConv (store : List Conversation) (owner id : Nat) :
    Except ServiceError Unit × List Conversation :=
  match findConv store id owner with
  | none => (.error .notFound, store)
  | some _ => (.ok (), removeConv store id owner)

/-- `POST /api/conversations/:id/messages`: the handler first rejects a
missing role or content (`!role || !content`), then a role outside
{user, assistant}; only then does it look the conversation up; the save
inside `addMessage` enforces the `required` content validator (content that
trims to empty).  After a successful append, the handler re-derives the title
when the appended message is the only one. -/
def appendMessageOp (store : List Conversation) (owner id : Nat)
    (role content : String) (mdl : Option String) (now : Nat) :
    Except ServiceError Conversation × List Conversation :=
  if role = "" ∨ content = "" then (.error .validationFailure, store)
  else if ¬ (role = "user" ∨ role = "assistant") then
    (.error .validationFailure, store)
  else
    match findConv store id owner with
    | none => (.error .notFound, store)
    | some c =>
      if trimS content = "" then (.error .validationFailure, store)
      else
        let c1 := appendRaw c role content (mdl.getD "gpt-4o-mini") now
        let c2 := if c1.messages.length = 1 then updateTitleFromFirstMessage c1
                  else c1
        (.ok c2, replaceConv store id c2)

/-- The filter of `GET /api/conversations`: owner, exact archived flag, and —
when a search string is present — a case-insensitive substring match on the
title or on some message's content. -/
def listPred (owner : Nat) (archived : Bool) (search : String)
    (c : Conversation) : Prop :=
  c.userId = owner ∧ c.isArchived = archived ∧
    (search = "" ∨ ciSub search c.title ∨ ∃ m ∈ c.messages, ciSub search m.content)

instance (owner : Nat) (archived : Bool) (search : String) :
    DecidablePred (listPred owner archived search) := by
  intro c
  unfold listPred
  infer_instance

/-- Descending-by-updatedAt comparison used by `.sort({ updatedAt: -1 })`. -/
def updatedGe (a b : Conversation) : Prop := b.updatedAt ≤ a.updatedAt

instance : DecidableRel updatedGe := fun a b => Nat.decLe b.updatedAt a.updatedAt

instance : IsTotal Conversation updatedGe :=
  ⟨fun a b => Nat.le_total b.updatedAt a.updatedAt⟩

instance : IsTrans Conversation updatedGe :=
  ⟨fun _ _ _ hab hbc => Nat.le_trans hbc hab⟩

/-- `.sort({ updatedAt: -1 })`: most recently updated first. -/
def sortByUpdatedDesc (l : List Conversation) : List Conversation :=
  List.insertionSort updatedGe l

/-- The page + counters returned by the list and search handlers. -/
structure PageResult where
  conversations : List Conversation
  totalPages : Nat
  currentPage : Nat
  total : Nat
deriving DecidableEq

/-- `GET /api/conversations`: filter by owner/archived/search, sort by
updatedAt descending, skip `(page-1)*limit`, take `limit`, and report
`Math.ceil(total/limit)` pages. -/
def listOp (store : List Conversation) (owner : Nat) (page limit : Nat)
    (archived : Bool) (search : String) : PageResult :=
  let matching := store.filter fun c => decide (listPred owner archived search c)
  let sorted := sortByUpdatedDesc matching
  { conversations := (sorted.drop ((page - 1) * limit)).take limit
    totalPages := (matching.length + limit - 1) / limit
    currentPage := page
    total := matching.length }

/-- The filter of `GET /api/conversations/search`: owner, and a
case-insensitive substring match on the title, on some message's content, or
on some tag. -/
def searchPred (owner : Nat) (q : String) (c : Conversation) : Prop :=
  c.userId = owner ∧
    (ciSub q c.title ∨ (∃ m ∈ c.messages, ciSub q m.content) ∨
      ∃ t ∈ c.tags, ciSub q t)

instance (owner : Nat) (q : String) : DecidablePred (searchPred owner q) := by
  intro c
  unfold searchPred
  infer_instance

/-- The set of documents matched by a search, before pagination. -/
def searchMatching (store : List Conversation) (owner : Nat) (q : String) :
    List Conversation :=
  store.filter fun c => decide (searchPred owner q c)

/-- `GET /api/conversations/search`: a missing/empty `q` is rejected with 400;
otherwise the matches are sorted and paginated exactly like the list route. -/
def searchOp (store : List Conversation) (owner : Nat) (q : String)
    (page limit : Nat) : Except ServiceError PageResult :=
  if q = "" then .error .validationFailure
  else
    let matching := searchMatching store owner q
    let sorted := sortByUpdatedDesc matching
    .ok { conversations := (sorted.drop ((page - 1) * limit)).take limit
          totalPages := (matching.length + limit - 1) / limit
          currentPage := page
          total := matching.length }

/-- A message as sent to the provider: all metadata stripped. -/
structure CtxMsg where
  role : String
  content : String
deriving DecidableEq

/-- A provider failure, carrying the HTTP status of `error.response`, when
the error exposes one. -/
structure ProviderFail where
  status : Option Nat
deriving DecidableEq

/-- The body of a successful `POST /api/chat` response. -/
structure ChatResult where
  reply : String
  conversationId : Option Nat
deriving DecidableEq

/-- Context assembly of `POST /api/chat`: when both a conversationId and a
userId are supplied and resolve to an owned conversation, the last 10 stored
messages (oldest first) reduced to role/content; otherwise empty. -/
def chatContext (store : List Conversation) (owner conversationId : Option Nat) :
    List CtxMsg :=
  match conversationId, owner with
  | some cid, some uid =>
    match findConv store cid uid with
    | some c =>
      (c.messages.drop (c.messages.length - 10)).map
        fun m => { role := m.role, content := m.content }
    | none => []
  | _, _ => []

/-- The catch block of `POST /api/chat`: status 401 → invalid provider key,
status 429 → rate limited, anything else → generic AI-service failure. -/
def classifyProviderFailure (e : ProviderFail) : ServiceError :=
  if e.status = some 401 then .authFailure
  else if e.status = some 429 then .rateLimited
  else .providerError

/-- `POST /api/chat` (server.js): reject a missing message; assemble context;
call the provider on context + the new user message; on success, when an
owned conversation was resolved, append the user message and then the
assistant reply (each a separate validated save — a message that trims to
empty makes the corresponding save throw, which the catch block reports as
the generic 500 failure); finally answer with the reply and the request's
conversationId (or null). -/
def converse (store : List Conversation) (owner : Option Nat) (message : String)
    (conversationId : Option Nat)
    (provider : List CtxMsg → Except ProviderFail String) (now : Nat) :
    Except ServiceError ChatResult × List Conversation :=
  if message = "" then (.error .validationFailure, store)
  else
    let ctx := chatContext store owner conversationId
    match provider (ctx ++ [{ role := "user", content := message }]) with
    | .error e => (.error (classifyProviderFailure e), store)
    | .ok reply =>
      match conversationId, owner with
      | some cid, some uid =>
        match findConv store cid uid with
        | some c =>
          if trimS message = "" then (.error .providerError, store)
          else
            let c1 := appendRaw c "user" message "gpt-4o-mini" now
            let store1 := replaceConv store cid c1
            if trimS reply = "" then (.error .providerError, store1)
            else
              let c2 := appendRaw c1 "assistant" reply "gpt-4o-mini" now
              (.ok { reply := reply, conversationId := some cid },
                replaceConv store1 cid c2)
        | none => (.ok { reply := reply, conversationId := some cid }, store)
      | _, _ => (.ok { reply := reply, conversationId := conversationId }, store)

/-- Stores reachable from the empty store through the service operations
(list, get and search are pure reads and produce no new store). -/
inductive Reachable : List Conversation → Prop where
  | init : Reachable []
  | create (s : List Conversation) (owner : Nat) (t im : Option String)
      (now nid : Nat) : Reachable s → Reachable (createConv s owner t im now nid).2
  | update (s : List Conversation) (owner id : Nat) (p : UpdatePatch) (now : Nat) :
      Reachable s → Reachable (updateConv s owner id p now).2
  | del (s : List Conversation) (owner id : Nat) :
      Reachable s → Reachable (deleteConv s owner id).2
  | append (s : List Conversation) (owner id : Nat) (role content : String)
      (mdl : Option String) (now : Nat) :
      Reachable s → Reachable (appendMessageOp s owner id role content mdl now).2
  | chat (s : List Conversation) (owner : Option Nat) (message : String)
      (cid : Option Nat) (provider : List CtxMsg → Except ProviderFail String)
      (now : Nat) : Reachable s → Reachable (converse s owner message cid provider now).2

/-- Every stored conversation has totalTokens 0. -/
def allTokensZero (s : List Conversation) : Prop :=
  ∀ c ∈ s, c.totalTokens = 0

/-- Document ids are unique in the store (MongoDB `_id` uniqueness). -/
def idsNodup (s : List Conversation) : Prop :=
  (s.map fun c => c.id).Nodup

instance (s : List Conversation) : Decidable (idsNodup s) := by
  unfold idsNodup
  infer_instance

instance (s : List Conversation) : Decidable (allTokensZero s) := by
  unfold allTokensZero
  infer_instance

/-! ### Helper lemmas -/

lemma findConv_eq_none (s : List Conversation) (id owner : Nat)
    (h : ∀ d ∈ s, ¬ (d.id = id ∧ d.userId = owner)) :
    findConv s id owner = none := by
  induction s with
  | nil => rfl
  | cons d t ih =>
    unfold findConv
    rw [if_neg (h d (List.mem_cons_self d t))]
    exact ih fun x hx => h x (List.mem_cons_of_mem d hx)

lemma findConv_some (s : List Conversation) (id owner : Nat) (c : Conversation)
    (h : findConv s id owner = some c) :
    c.id = id ∧ c.userId = owner ∧ c ∈ s := by
  induction s with
  | nil => exact absurd h (by simp [findConv])
  | cons d t ih =>
    unfold findConv at h
    by_cases hd : d.id = id ∧ d.userId = owner
    · rw [if_pos hd] at h
      obtain rfl := Option.some.inj h
      exact ⟨hd.1, hd.2, List.mem_cons_self d t⟩
    · rw [if_neg hd] at h
      obtain ⟨h1, h2, h3⟩ := ih h
      exact ⟨h1, h2, List.mem_cons_of_mem d h3⟩

lemma cross_owner_no_match (s : List Conversation) (c : Conversation) (B : Nat)
    (hw : idsNodup s) (hc : c ∈ s) (hB : B ≠ c.userId) :
    ∀ d ∈ s, ¬ (d.id = c.id ∧ d.userId = B) := by
  intro d hd hcon
  have hdc : d = c := List.inj_on_of_nodup_map hw hd hc hcon.1
  exact hB (by rw [← hcon.2, hdc])

lemma mem_replaceConv (s : List Conversation) (id : Nat) (c' d : Conversation)
    (hd : d ∈ replaceConv s id c') : d = c' ∨ d ∈ s := by
  unfold replaceConv at hd
  obtain ⟨a, ha, hda⟩ := List.mem_map.mp hd
  by_cases h : a.id = id
  · rw [if_pos h] at hda
    exact Or.inl hda.symm
  · rw [if_neg h] at hda
    exact Or.inr (hda ▸ ha)

lemma mem_removeConv (s : List Conversation) (id owner : Nat) (d : Conversation)
    (hd : d ∈ removeConv s id owner) : d ∈ s := by
  induction s with
  | nil => exact absurd hd (by simp [removeConv])
  | cons a t ih =>
    unfold removeConv at hd
    by_cases h : a.id = id ∧ a.userId = owner
    · rw [if_pos h] at hd
      exact List.mem_cons_of_mem a hd
    · rw [if_neg h] at hd
      rcases List.mem_cons.mp hd with h1 | h1
      · exact h1 ▸ List.mem_cons_self a t
      · exact List.mem_cons_of_mem a (ih h1)

lemma perm_sortByUpdatedDesc (l : List Conversation) :
    (sortByUpdatedDesc l).Perm l :=
  List.perm_insertionSort updatedGe l

lemma sorted_sortByUpdatedDesc (l : List Conversation) :
    List.Sorted updatedGe (sortByUpdatedDesc l) :=
  List.sorted_insertionSort updatedGe l

lemma mem_of_mem_page (l : List Conversation) (n m : Nat) (c : Conversation)
    (h : c ∈ (l.drop n).take m) : c ∈ l :=
  List.mem_of_mem_drop (List.mem_of_mem_take h)

lemma updateTitle_messages (c : Conversation) :
    (updateTitleFromFirstMessage c).messages = c.messages := by
  unfold updateTitleFromFirstMessage
  split
  · split <;> rfl
  · rfl

lemma updateTitle_totalTokens (c : Conversation) :
    (updateTitleFromFirstMessage c).totalTokens = c.totalTokens := by
  unfold updateTitleFromFirstMessage
  split
  · split <;> rfl
  · rfl

lemma replaceConv_twice (s : List Conversation) (id : Nat) (c1 c2 : Conversation)
    (h : c1.id = id) :
    replaceConv (replaceConv s id c1) id c2 = replaceConv s id c2 := by
  unfold replaceConv
  rw [List.map_map]
  congr 1
  funext d
  by_cases hd : d.id = id
  · simp [Function.comp, hd, h]
  · simp [Function.comp, hd]

lemma ceil_div_bounds (t l : Nat) (hl : 0 < l) :
    t ≤ l * ((t + l - 1) / l) ∧ l * ((t + l - 1) / l) < t + l := by
  have h1 := Nat.div_add_mod (t + l - 1) l
  have h2 := Nat.mod_lt (t + l - 1) hl
  omega

/-- A string of `n` letters a, used as the title-derivation test input. -/
def aStr (n : Nat) : String := String.mk (List.replicate n 'a')

/-- A conversation document fixture owned by user 1. -/
def convW : Conversation :=
  { id := 1, userId := 1, title := "hello", messages := [], isArchived := false,
    isPinned := false, tags := [], totalTokens := 0, model := "gpt-4o-mini",
    settings := { temperature := some 70, maxTokens := some 1000 },
    createdAt := 0, updatedAt := 0 }

/-! ### Claim theorems -/

/-- C2 (code_bug): creating a conversation with no title and a 60-character
initial message leaves the title as the default "New Chat" — the derived
title (50 characters plus an ellipsis) is never installed, because the create
handler always sets `title || 'New Chat'` before `updateTitleFromFirstMessage`
runs, and that method only rewrites an empty title.  The 40-character case
fails the same way. -/
theorem create_title_not_derived :
    (createConv [] 1 none (some (aStr 60)) 0 1).2.map (fun c => c.title) =
      ["New Chat"] ∧
    deriveTitle (aStr 60) = aStr 50 ++ "..." ∧
    aStr 50 ++ "..." ≠ "New Chat" ∧
    (createConv [] 1 none (some (aStr 40)) 0 1).2.map (fun c => c.title) =
      ["New Chat"] ∧
    deriveTitle (aStr 40) = aStr 40 ∧
    aStr 40 ≠ "New Chat" := by decide

/-- The update request that sets both settings fields. -/
def c3patch1 : UpdatePatch :=
  { emptyPatch with settings := some { temperature := some 70, maxTokens := some 2000 } }

/-- The update request that supplies only the temperature. -/
def c3patch2 : UpdatePatch :=
  { emptyPatch with settings := some { temperature := some 20, maxTokens := none } }

/-- The store after create, then an update storing maxTokens 2000. -/
def c3store1 : List Conversation :=
  (updateConv (createConv [] 1 none none 0 1).2 1 1 c3patch1 1).2

/-- The same store after a further update supplying only the temperature. -/
def c3store2 : List Conversation :=
  (updateConv c3store1 1 1 c3patch2 2).2

/-- C3 (code_bug): a temperature-only settings update drops the stored
maxTokens (2000) entirely — the settings subdocument is replaced by exactly
the supplied fields (the handler spreads the empty `updates` object, not the
stored settings), and the dropped field reads back as the schema default
1000 instead of keeping 2000. -/
theorem update_settings_replaced_wholesale :
    c3store1.map (fun c => c.settings.maxTokens) = [some 2000] ∧
    c3store2.map (fun c => c.settings.maxTokens) = [none] ∧
    c3store2.map effectiveMaxTokens = [1000] ∧
    c3store2.map (fun c => c.settings.temperature) = [some 20] := by decide

/-- C8 (confirmed): a chat call with no conversationId never touches the
store — in every outcome the store is returned unchanged — and on provider
success it answers with the reply and a null conversationId. -/
theorem detached_chat_frame (store : List Conversation) (owner : Option Nat)
    (message : String) (provider : List CtxMsg → Except ProviderFail String)
    (now : Nat) :
    (converse store owner message none provider now).2 = store ∧
    (∀ reply, message ≠ "" →
      provider [{ role := "user", content := message }] = .ok reply →
      (converse store owner message none provider now).1 =
        .ok { reply := reply, conversationId := none }) := by
  have hctx : chatContext store owner none = [] := by
    unfold chatContext
    cases owner <;> rfl
  constructor
  · unfold converse
    by_cases hm : message = ""
    · rw [if_pos hm]
    · rw [if_neg hm]
      simp only [hctx, List.nil_append]
      cases hp : provider [{ role := "user", content := message }] <;> rfl
  · intro reply hm hp
    unfold converse
    rw [if_neg hm]
    simp only [hctx, List.nil_append, hp]

/-- C9 (confirmed): when the provider invocation fails, the call surfaces an
error (never a success) and classifies it by the provider's reported status:
401 → AuthFailure, 429 → RateLimited, anything else → ProviderError; the
store is left unchanged. -/
theorem provider_failure_classification (store : List Conversation)
    (owner : Option Nat) (message : String) (cid : Option Nat)
    (provider : List CtxMsg → Except ProviderFail String) (e : ProviderFail)
    (now : Nat) (hm : message ≠ "")
    (hp : provider (chatContext store owner cid ++
      [{ role := "user", content := message }]) = .error e) :
    converse store owner message cid provider now =
      (.error (classifyProviderFailure e), store) ∧
    (classifyProviderFailure e = .authFailure ↔ e.status = some 401) ∧
    (classifyProviderFailure e = .rateLimited ↔ e.status = some 429) ∧
    (e.status ≠ some 401 → e.status ≠ some 429 →
      classifyProviderFailure e = .providerError) ∧
    ∀ r, (converse store owner message cid provider now).1 ≠ .ok r := by
  have hmain : converse store owner message cid provider now =
      (.error (classifyProviderFailure e), store) := by
    unfold converse
    rw [if_neg hm]
    simp only [hp]
  refine ⟨hmain, ?_, ?_, ?_, ?_⟩
  · by_cases h4 : e.status = some 401 <;>
      by_cases h9 : e.status = some 429 <;>
      simp [classifyProviderFailure, h4, h9]
  · by_cases h4 : e.status = some 401 <;>
      by_cases h9 : e.status = some 429 <;>
      simp [classifyProviderFailure, h4, h9]
  · intro h4 h9
    simp [classifyProviderFailure, h4, h9]
  · intro r
    rw [hmain]
    simp

/-- A provider failure fixture reporting HTTP status 429. -/
def fail429 : ProviderFail := { status := some 429 }

/-- C9 witness: a concrete rate-limited provider failure on a concrete store. -/
theorem provider_failure_classification_witness :
    (("hi" : String) ≠ "" ∧
      ((fun _ : List CtxMsg => (Except.error fail429 : Except ProviderFail String))
        (chatContext [convW] (some 1) (some 1) ++
          [{ role := "user", content := "hi" }]) = Except.error fail429)) ∧
    converse [convW] (some 1) "hi" (some 1)
        (fun _ => Except.error fail429) 3 =
      (.error (classifyProviderFailure fail429), [convW]) ∧
    classifyProviderFailure fail429 = .rateLimited :=
  ⟨⟨by decide, rfl⟩,
    (provider_failure_classification [convW] (some 1) "hi" (some 1)
      (fun _ => Except.error fail429) fail429 3 (by decide) rfl).1,
    (provider_failure_classification [convW] (some 1) "hi" (some 1)
      (fun _ => Except.error fail429) fail429 3 (by decide) rfl).2.2.1.mpr rfl⟩

/-- C8 witness: a concrete detached chat call on a one-conversation store. -/
theorem detached_chat_frame_witness :
    (("hi" : String) ≠ "" ∧
      ((fun _ : List CtxMsg => (Except.ok "hello" : Except ProviderFail String))
        [{ role := "user", content := "hi" }] = Except.ok "hello")) ∧
    (converse [convW] (some 1) "hi" none (fun _ => Except.ok "hello") 3).2 =
      [convW] ∧
    (converse [convW] (some 1) "hi" none (fun _ => Except.ok "hello") 3).1 =
      .ok { reply := "hello", conversationId := none } :=
  ⟨⟨by decide, rfl⟩,
    (detached_chat_frame [convW] (some 1) "hi" (fun _ => Except.ok "hello") 3).1,
    (detached_chat_frame [convW] (some 1) "hi" (fun _ => Except.ok "hello") 3).2
      "hello" (by decide) rfl⟩

/-- C1 (confirmed): a conversation owned by user A is invisible to any other
user B: get, update, delete and appendMessage with owner B and that
conversation's id all answer NotFound and leave the store unchanged, and the
conversation never appears in any list page for B.  The validation stages of
update and appendMessage (which run before any data access and do not depend
on the owner) are assumed passed. -/
theorem ownership_isolation (store : List Conversation) (c : Conversation)
    (B : Nat) (page limit : Nat) (archived : Bool) (search : String)
    (p : UpdatePatch) (role content : String) (mdl : Option String) (now : Nat)
    (hw : idsNodup store) (hc : c ∈ store) (hB : B ≠ c.userId)
    (hp : validPatch p = true)
    (hrole : role = "user" ∨ role = "assistant") (hcontent : content ≠ "") :
    getConv store B c.id = .error .notFound ∧
    c ∉ (listOp store B page limit archived search).conversations ∧
    updateConv store B c.id p now = (.error .notFound, store) ∧
    deleteConv store B c.id = (.error .notFound, store) ∧
    appendMessageOp store B c.id role content mdl now =
      (.error .notFound, store) := by
  have hnone : findConv store c.id B = none :=
    findConv_eq_none store c.id B (cross_owner_no_match store c B hw hc hB)
  have hrole0 : role ≠ "" := by
    rcases hrole with h | h <;> simp [h]
  refine ⟨?_, ?_, ?_, ?_, ?_⟩
  · unfold getConv
    rw [hnone]
  · intro hmem
    have h1 : c ∈ sortByUpdatedDesc
        (store.filter fun d => decide (listPred B archived search d)) :=
      mem_of_mem_page _ _ _ _ hmem
    have h2 : c ∈ store.filter fun d => decide (listPred B archived search d) :=
      (perm_sortByUpdatedDesc _).mem_iff.mp h1
    have h3 := of_decide_eq_true (List.mem_filter.mp h2).2
    exact hB h3.1.symm
  · unfold updateConv
    rw [if_pos hp, hnone]
  · unfold deleteConv
    rw [hnone]
  · unfold appendMessageOp
    rw [if_neg (by rintro (h | h) <;> [exact hrole0 h; exact hcontent h]),
      if_neg (by intro hcontra; exact hcontra hrole), hnone]

/-- C1 witness: a one-conversation store owned by user 1, probed as user 2. -/
theorem ownership_isolation_witness :
    (idsNodup [convW] ∧ convW ∈ [convW] ∧ (2 : Nat) ≠ convW.userId ∧
      validPatch emptyPatch = true ∧
      (("user" : String) = "user" ∨ ("user" : String) = "assistant") ∧
      ("hi" : String) ≠ "") ∧
    (getConv [convW] 2 convW.id = .error .notFound ∧
      convW ∉ (listOp [convW] 2 1 20 false "").conversations ∧
      updateConv [convW] 2 convW.id emptyPatch 7 = (.error .notFound, [convW]) ∧
      deleteConv [convW] 2 convW.id = (.error .notFound, [convW]) ∧
      appendMessageOp [convW] 2 convW.id "user" "hi" none 7 =
        (.error .notFound, [convW])) :=
  ⟨⟨by decide, by decide, by decide, by decide, Or.inl rfl, by decide⟩,
    ownership_isolation [convW] convW 2 1 20 false "" emptyPatch "user" "hi"
      none 7 (by decide) (by decide) (by decide) (by decide) (Or.inl rfl)
      (by decide)⟩

/-- C4 counterexample: role "user" and the nonempty content " " satisfy the
claim's guard for the append branch (role valid, content nonempty, the
conversation exists under this owner), yet the operation reports a
ValidationFailure and appends nothing: mongoose trims the content to the
empty string and the required validator rejects the save. -/
theorem append_whitespace_content_cex :
    (" " : String) ≠ "" ∧
    (("user" : String) = "user" ∨ ("user" : String) = "assistant") ∧
    findConv [convW] 1 1 = some convW ∧
    appendMessageOp [convW] 1 1 "user" " " none 7 =
      (.error .validationFailure, [convW]) := by decide

/-- C4 (corrected): appendMessage with a role outside {user, assistant} or an
empty content fails as ValidationFailure with the store unchanged; on an
existing owned conversation, content that trims to whitespace-only also fails
as ValidationFailure with the store unchanged, while content with a nonempty
trim appends exactly one message carrying that role and the trimmed content
at the end of the message sequence; a missing conversation yields NotFound
with the store unchanged. -/
theorem append_message_validation (store : List Conversation) (owner id : Nat)
    (role content : String) (mdl : Option String) (now : Nat) :
    ((role = "" ∨ content = "" ∨ ¬ (role = "user" ∨ role = "assistant")) →
      appendMessageOp store owner id role content mdl now =
        (.error .validationFailure, store)) ∧
    ((role = "user" ∨ role = "assistant") → content ≠ "" →
      findConv store id owner = none →
      appendMessageOp store owner id role content mdl now =
        (.error .notFound, store)) ∧
    (∀ c, (role = "user" ∨ role = "assistant") →
      findConv store id owner = some c → trimS content = "" → content ≠ "" →
      appendMessageOp store owner id role content mdl now =
        (.error .validationFailure, store)) ∧
    (∀ c, (role = "user" ∨ role = "assistant") →
      findConv store id owner = some c → trimS content ≠ "" →
      ∃ c2, appendMessageOp store owner id role content mdl now =
          (.ok c2, replaceConv store id c2) ∧
        c2.messages = c.messages ++
          [{ role := role, content := trimS content, timestamp := now,
             tokens := 0, model := mdl.getD "gpt-4o-mini" }]) := by
  refine ⟨?_, ?_, ?_, ?_⟩
  · intro h
    unfold appendMessageOp
    by_cases h1 : role = "" ∨ content = ""
    · rw [if_pos h1]
    · rw [if_neg h1]
      have h2 : ¬ (role = "user" ∨ role = "assistant") := by
        rcases h with h | h | h
        · exact absurd (Or.inl h) h1
        · exact absurd (Or.inr h) h1
        · exact h
      rw [if_pos h2]
  · intro hrole hcontent hfind
    have hrole0 : role ≠ "" := by rcases hrole with h | h <;> simp [h]
    unfold appendMessageOp
    rw [if_neg (by rintro (h | h) <;> [exact hrole0 h; exact hcontent h]),
      if_neg (by intro hcontra; exact hcontra hrole), hfind]
  · intro c hrole hfind htrim hcontent
    have hrole0 : role ≠ "" := by rcases hrole with h | h <;> simp [h]
    unfold appendMessageOp
    rw [if_neg (by rintro (h | h) <;> [exact hrole0 h; exact hcontent h]),
      if_neg (by intro hcontra; exact hcontra hrole), hfind]
    simp only [if_pos htrim]
  · intro c hrole hfind htrim
    have hcontent : content ≠ "" := by
      intro h
      exact htrim (by rw [h]; rfl)
    have hrole0 : role ≠ "" := by rcases hrole with h | h <;> simp [h]
    unfold appendMessageOp
    rw [if_neg (by rintro (h | h) <;> [exact hrole0 h; exact hcontent h]),
      if_neg (by intro hcontra; exact hcontra hrole), hfind]
    simp only [if_neg htrim]
    refine ⟨_, rfl, ?_⟩
    by_cases hlen :
        (appendRaw c role content (mdl.getD "gpt-4o-mini") now).messages.length = 1
    · rw [if_pos hlen, updateTitle_messages]
      rfl
    · rw [if_neg hlen]
      rfl

/-- C4 witness: on a concrete owned conversation, appending role user with
content " hi " stores exactly one message whose content is the trimmed
"hi". -/
theorem append_message_validation_witness :
    ((("user" : String) = "user" ∨ ("user" : String) = "assistant") ∧
      findConv [convW] 1 1 = some convW ∧ trimS " hi " ≠ "") ∧
    (∃ c2, appendMessageOp [convW] 1 1 "user" " hi " none 7 =
        (.ok c2, replaceConv [convW] 1 c2) ∧
      c2.messages = convW.messages ++
        [{ role := "user", content := trimS " hi ", timestamp := 7,
           tokens := 0, model := "gpt-4o-mini" }]) :=
  ⟨⟨Or.inl rfl, by decide, by decide⟩,
    (append_message_validation [convW] 1 1 "user" " hi " none 7).2.2.2 convW
      (Or.inl rfl) (by decide) (by decide)⟩

/-- A conversation titled "Trip Planning", owned by user 1. -/
def convTrip : Conversation :=
  { id := 3, userId := 1, title := "Trip Planning", messages := [],
    isArchived := false, isPinned := false, tags := [], totalTokens := 0,
    model := "gpt-4o-mini",
    settings := { temperature := some 70, maxTokens := some 1000 },
    createdAt := 0, updatedAt := 0 }

/-- C5 (confirmed): a missing/empty query is a validation failure, not an
empty page; with a nonempty query, the reported total counts exactly the
conversations of that owner whose title, some message content, or some tag
contains the query as a case-insensitive substring, every returned page
element comes from that match set, and a conversation titled "Trip Planning"
matches the query "trip".  (The `$regex` matcher is modelled as
case-insensitive substring containment, its meaning on metacharacter-free
queries.) -/
theorem search_semantics (store : List Conversation) (owner : Nat) (q : String)
    (page limit : Nat) :
    searchOp store owner "" page limit = .error .validationFailure ∧
    (∀ R, searchOp store owner q page limit = .ok R →
      R.total = (searchMatching store owner q).length ∧
      ∀ d ∈ R.conversations, d ∈ searchMatching store owner q) ∧
    (∀ c, c ∈ searchMatching store owner q ↔
      c ∈ store ∧ c.userId = owner ∧
        (ciSub q c.title ∨ (∃ m ∈ c.messages, ciSub q m.content) ∨
          ∃ t ∈ c.tags, ciSub q t)) ∧
    searchPred 1 "trip" convTrip := by
  refine ⟨?_, ?_, ?_, by decide⟩
  · unfold searchOp
    rw [if_pos rfl]
  · intro R hR
    unfold searchOp at hR
    by_cases hq : q = ""
    · rw [if_pos hq] at hR
      exact absurd hR (by simp)
    · rw [if_neg hq] at hR
      obtain rfl := (Except.ok.inj hR).symm
      refine ⟨rfl, ?_⟩
      intro d hd
      exact ((perm_sortByUpdatedDesc _).mem_iff).mp (mem_of_mem_page _ _ _ _ hd)
  · intro c
    unfold searchMatching
    rw [List.mem_filter]
    constructor
    · rintro ⟨h1, h2⟩
      have h3 := of_decide_eq_true h2
      exact ⟨h1, h3.1, h3.2⟩
    · rintro ⟨h1, h2, h3⟩
      exact ⟨h1, decide_eq_true ⟨h2, h3⟩⟩

/-- C5 witness: the empty query fails, "trip" finds the "Trip Planning"
conversation, and the match-set characterization holds on a concrete store. -/
theorem search_semantics_witness :
    (searchOp [convTrip] 1 "" 1 20 = .error .validationFailure) ∧
    (convTrip ∈ searchMatching [convTrip] 1 "trip" ↔
      convTrip ∈ [convTrip] ∧ convTrip.userId = 1 ∧
        (ciSub "trip" convTrip.title ∨
          (∃ m ∈ convTrip.messages, ciSub "trip" m.content) ∨
          ∃ t ∈ convTrip.tags, ciSub "trip" t)) ∧
    searchPred 1 "trip" convTrip ∧
    convTrip ∈ searchMatching [convTrip] 1 "trip" :=
  have h := search_semantics [convTrip] 1 "trip" 1 20
  ⟨h.1, h.2.2.1 convTrip, h.2.2.2, by decide⟩

/-- C6 (confirmed): the list route reports ceil(total/limit) total pages
(characterized both by the ceiling-division operator and by the two bounds
that pin the ceiling down), returns only conversations of the requested owner
with exactly the requested archived flag, and the returned page consists of
the entries at offset (page-1)*limit of an ordering of the matching
conversations that is descending by last-updated time. -/
theorem list_pagination (store : List Conversation) (owner : Nat)
    (page limit : Nat) (archived : Bool) (search : String)
    (_hp : 1 ≤ page) (hl : 1 ≤ limit) :
    (listOp store owner page limit archived search).totalPages =
      (listOp store owner page limit archived search).total ⌈/⌉ limit ∧
    (listOp store owner page limit archived search).total ≤
      limit * (listOp store owner page limit archived search).totalPages ∧
    limit * (listOp store owner page limit archived search).totalPages <
      (listOp store owner page limit archived search).total + limit ∧
    (∀ c ∈ (listOp store owner page limit archived search).conversations,
      c.userId = owner ∧ c.isArchived = archived) ∧
    ∃ all, all.Perm
        (store.filter fun c => decide (listPred owner archived search c)) ∧
      List.Sorted updatedGe all ∧
      (listOp store owner page limit archived search).conversations =
        (all.drop ((page - 1) * limit)).take limit := by
  refine ⟨rfl, (ceil_div_bounds _ limit hl).1, (ceil_div_bounds _ limit hl).2,
    ?_, ?_⟩
  · intro c hc
    have h1 : c ∈ sortByUpdatedDesc
        (store.filter fun d => decide (listPred owner archived search d)) :=
      mem_of_mem_page _ _ _ _ hc
    have h2 := (perm_sortByUpdatedDesc _).mem_iff.mp h1
    have h3 := of_decide_eq_true (List.mem_filter.mp h2).2
    exact ⟨h3.1, h3.2.1⟩
  · exact ⟨sortByUpdatedDesc _, perm_sortByUpdatedDesc _,
      sorted_sortByUpdatedDesc _, rfl⟩

/-- A conversation fixture used to populate the 45-element pagination store. -/
def mkConvN (i : Nat) : Conversation :=
  { id := i, userId := 1, title := "c", messages := [], isArchived := false,
    isPinned := false, tags := [], totalTokens := 0, model := "gpt-4o-mini",
    settings := { temperature := some 70, maxTokens := some 1000 },
    createdAt := i, updatedAt := i }

/-- 45 conversations of user 1, with distinct update times. -/
def store45 : List Conversation := (List.range 45).map mkConvN

/-- C6 witness: total 45 with limit 20 reports 3 pages and page 3 holds the
remaining 5 conversations, all of the requested owner and archived flag. -/
theorem list_pagination_witness :
    ((1 : Nat) ≤ 3 ∧ (1 : Nat) ≤ 20) ∧
    (∀ c ∈ (listOp store45 1 3 20 false "").conversations,
      c.userId = 1 ∧ c.isArchived = false) ∧
    (listOp store45 1 3 20 false "").total = 45 ∧
    (listOp store45 1 3 20 false "").totalPages = 3 ∧
    (listOp store45 1 3 20 false "").conversations.length = 5 :=
  ⟨⟨by decide, by decide⟩,
    (list_pagination store45 1 3 20 false "" (by decide) (by decide)).2.2.2.1,
    by decide, by decide, by decide⟩

/-- C7 counterexample: a chat call whose conversationId resolves to an owned
conversation and whose provider succeeds, but whose user message is the
single space " ": the persisted user-message save is rejected by the
required-content validator, the handler answers with the generic 500
failure, and the conversation grows by 0 messages, not 2. -/
theorem chat_growth_cex :
    findConv [convW] 1 1 = some convW ∧
    (converse [convW] (some 1) " " (some 1)
        (fun _ => Except.ok "hello") 5).1 = .error .providerError ∧
    (converse [convW] (some 1) " " (some 1)
        (fun _ => Except.ok "hello") 5).2 = [convW] ∧
    ¬ ∃ d ∈ (converse [convW] (some 1) " " (some 1)
        (fun _ => Except.ok "hello") 5).2,
      d.messages.length = convW.messages.length + 2 := by decide

/-- C7 (corrected): on a chat call whose conversationId resolves to an owned
conversation, the context sent to the provider is at most the last 10 prior
stored messages, oldest-first (a suffix of the stored sequence), each reduced
to role and content; and — provided the user message and the provider reply
are nonempty after trimming — the call succeeds and the stored conversation
grows by exactly 2 messages, the user message (trimmed) followed by the
assistant reply (trimmed). -/
theorem chat_context_and_growth (store : List Conversation) (uid cid : Nat)
    (c : Conversation) (message reply : String)
    (provider : List CtxMsg → Except ProviderFail String) (now : Nat)
    (hf : findConv store cid uid = some c)
    (hm : trimS message ≠ "") (hr : trimS reply ≠ "")
    (hp : provider (chatContext store (some uid) (some cid) ++
      [{ role := "user", content := message }]) = .ok reply) :
    (chatContext store (some uid) (some cid)).length ≤ 10 ∧
    chatContext store (some uid) (some cid) <:+
      (c.messages.map fun m => { role := m.role, content := m.content }) ∧
    (converse store (some uid) message (some cid) provider now).1 =
      .ok { reply := reply, conversationId := some cid } ∧
    (converse store (some uid) message (some cid) provider now).2 =
      replaceConv store cid
        (appendRaw (appendRaw c "user" message "gpt-4o-mini" now)
          "assistant" reply "gpt-4o-mini" now) ∧
    (appendRaw (appendRaw c "user" message "gpt-4o-mini" now)
        "assistant" reply "gpt-4o-mini" now).messages =
      c.messages ++
        [{ role := "user", content := trimS message, timestamp := now,
           tokens := 0, model := "gpt-4o-mini" },
         { role := "assistant", content := trimS reply, timestamp := now,
           tokens := 0, model := "gpt-4o-mini" }] := by
  have hm0 : message ≠ "" := by
    intro h
    exact hm (by rw [h]; rfl)
  have hctx : chatContext store (some uid) (some cid) =
      (c.messages.drop (c.messages.length - 10)).map
        fun m => { role := m.role, content := m.content } := by
    simp only [chatContext, hf]
  have hconv : converse store (some uid) message (some cid) provider now =
      (.ok { reply := reply, conversationId := some cid },
        replaceConv (replaceConv store cid
            (appendRaw c "user" message "gpt-4o-mini" now)) cid
          (appendRaw (appendRaw c "user" message "gpt-4o-mini" now)
            "assistant" reply "gpt-4o-mini" now)) := by
    unfold converse
    rw [if_neg hm0]
    simp only [hp, hf, if_neg hm, if_neg hr]
  have hcid : (appendRaw c "user" message "gpt-4o-mini" now).id = cid := by
    have := (findConv_some store cid uid c hf).1
    simpa [appendRaw] using this
  refine ⟨?_, ?_, ?_, ?_, ?_⟩
  · rw [hctx, List.length_map, List.length_drop]
    omega
  · rw [hctx]
    exact (List.drop_suffix _ _).map _
  · rw [hconv]
  · rw [hconv]
    exact replaceConv_twice store cid _ _ hcid
  · simp [appendRaw, List.append_assoc]

/-- A conversation with one stored message, owned by user 1. -/
def convM : Conversation :=
  { convW with messages :=
      [{ role := "user", content := "hey", timestamp := 0, tokens := 0,
         model := "gpt-4o-mini" }] }

/-- C7 witness: a concrete successful chat turn on a conversation holding one
prior message. -/
theorem chat_context_and_growth_witness :
    (findConv [convM] 1 1 = some convM ∧ trimS "hi" ≠ "" ∧ trimS "yo" ≠ "" ∧
      ((fun _ : List CtxMsg => (Except.ok "yo" : Except ProviderFail String))
        (chatContext [convM] (some 1) (some 1) ++
          [{ role := "user", content := "hi" }]) = Except.ok "yo")) ∧
    ((chatContext [convM] (some 1) (some 1)).length ≤ 10 ∧
      chatContext [convM] (some 1) (some 1) <:+
        (convM.messages.map fun m => { role := m.role, content := m.content }) ∧
      (converse [convM] (some 1) "hi" (some 1)
          (fun _ => Except.ok "yo") 9).1 =
        .ok { reply := "yo", conversationId := some 1 } ∧
      (converse [convM] (some 1) "hi" (some 1)
          (fun _ => Except.ok "yo") 9).2 =
        replaceConv [convM] 1
          (appendRaw (appendRaw convM "user" "hi" "gpt-4o-mini" 9)
            "assistant" "yo" "gpt-4o-mini" 9) ∧
      (appendRaw (appendRaw convM "user" "hi" "gpt-4o-mini" 9)
          "assistant" "yo" "gpt-4o-mini" 9).messages =
        convM.messages ++
          [{ role := "user", content := trimS "hi", timestamp := 9,
             tokens := 0, model := "gpt-4o-mini" },
           { role := "assistant", content := trimS "yo", timestamp := 9,
             tokens := 0, model := "gpt-4o-mini" }]) :=
  ⟨⟨by decide, by decide, by decide, rfl⟩,
    chat_context_and_growth [convM] 1 1 convM "hi" "yo"
      (fun _ => Except.ok "yo") 9 (by decide) (by decide) (by decide) rfl⟩

lemma allTokensZero_nil : allTokensZero [] := by
  intro c hc
  exact absurd hc (List.not_mem_nil c)

lemma createConv_zero (s : List Conversation) (owner : Nat) (t im : Option String)
    (now nid : Nat) (h : allTokensZero s) :
    allTokensZero (createConv s owner t im now nid).2 := by
  intro d hd
  have hstep : (createConv s owner t im now nid).2 = s ∨
      ∃ x, (createConv s owner t im now nid).2 = s ++ [x] ∧ x.totalTokens = 0 := by
    unfold createConv
    cases im with
    | none =>
      dsimp only
      split
      · exact Or.inr ⟨_, rfl, rfl⟩
      · exact Or.inl rfl
    | some im' =>
      dsimp only
      split
      · split
        · exact Or.inr ⟨_, rfl, rfl⟩
        · exact Or.inl rfl
      · split
        · exact Or.inl rfl
        · refine Or.inr ⟨_, rfl, ?_⟩
          rw [updateTitle_totalTokens]
          rfl
  rcases hstep with heq | ⟨x, heq, hx⟩
  · exact h d (heq ▸ hd)
  · rw [heq] at hd
    rcases List.mem_append.mp hd with h1 | h1
    · exact h d h1
    · rw [List.mem_singleton.mp h1]
      exact hx

lemma updateConv_zero (s : List Conversation) (owner id : Nat) (p : UpdatePatch)
    (now : Nat) (h : allTokensZero s) :
    allTokensZero (updateConv s owner id p now).2 := by
  intro d hd
  unfold updateConv at hd
  split at hd
  · split at hd
    · exact h d hd
    · next c hc =>
      rcases mem_replaceConv _ _ _ _ hd with rfl | h1
      · have hc0 : c.totalTokens = 0 := h c (findConv_some s id owner c hc).2.2
        exact hc0
      · exact h d h1
  · exact h d hd

lemma deleteConv_zero (s : List Conversation) (owner id : Nat)
    (h : allTokensZero s) : allTokensZero (deleteConv s owner id).2 := by
  intro d hd
  unfold deleteConv at hd
  split at hd
  · exact h d hd
  · exact h d (mem_removeConv _ _ _ _ hd)

lemma appendMessageOp_zero (s : List Conversation) (owner id : Nat)
    (role content : String) (mdl : Option String) (now : Nat)
    (h : allTokensZero s) :
    allTokensZero (appendMessageOp s owner id role content mdl now).2 := by
  intro d hd
  unfold appendMessageOp at hd
  split at hd
  · exact h d hd
  · split at hd
    · exact h d hd
    · split at hd
      · exact h d hd
      · next c hc =>
        split at hd
        · exact h d hd
        · rcases mem_replaceConv _ _ _ _ hd with rfl | h1
          · have hc0 : c.totalTokens = 0 := h c (findConv_some s id owner c hc).2.2
            split
            · rw [updateTitle_totalTokens]
              exact hc0
            · exact hc0
          · exact h d h1

lemma converse_zero (s : List Conversation) (owner : Option Nat) (message : String)
    (cid : Option Nat) (provider : List CtxMsg → Except ProviderFail String)
    (now : Nat) (h : allTokensZero s) :
    allTokensZero (converse s owner message cid provider now).2 := by
  intro d hd
  unfold converse at hd
  by_cases hmsg : message = ""
  · rw [if_pos hmsg] at hd
    exact h d hd
  · rw [if_neg hmsg] at hd
    dsimp only at hd
    cases hprov : provider (chatContext s owner cid ++
        [{ role := "user", content := message }]) with
    | error e =>
      rw [hprov] at hd
      exact h d hd
    | ok reply =>
      rw [hprov] at hd
      cases cid with
      | none =>
        exact h d hd
      | some cid' =>
        cases owner with
        | none =>
          exact h d hd
        | some uid' =>
          dsimp only at hd
          cases hfind : findConv s cid' uid' with
          | none =>
            rw [hfind] at hd
            exact h d hd
          | some c =>
            rw [hfind] at hd
            dsimp only at hd
            have hc0 : c.totalTokens = 0 :=
              h c (findConv_some s cid' uid' c hfind).2.2
            by_cases ht1 : trimS message = ""
            · rw [if_pos ht1] at hd
              exact h d hd
            · rw [if_neg ht1] at hd
              by_cases ht2 : trimS reply = ""
              · rw [if_pos ht2] at hd
                rcases mem_replaceConv _ _ _ _ hd with rfl | h1
                · exact hc0
                · exact h d h1
              · rw [if_neg ht2] at hd
                rcases mem_replaceConv _ _ _ _ hd with rfl | h1
                · exact hc0
                · rcases mem_replaceConv _ _ _ _ h1 with rfl | h2
                  · exact hc0
                  · exact h d h2

/-- C10 (confirmed): in every store reachable from the empty store through
the service operations, every conversation's totalTokens is 0 — conversations
are created with totalTokens 0 and no operation ever writes the field (list,
get and search are pure reads and return no modified store at all). -/
theorem total_tokens_invariant (s : List Conversation) (h : Reachable s) :
    allTokensZero s := by
  induction h with
  | init => exact allTokensZero_nil
  | create s owner t im now nid _ ih => exact createConv_zero s owner t im now nid ih
  | update s owner id p now _ ih => exact updateConv_zero s owner id p now ih
  | del s owner id _ ih => exact deleteConv_zero s owner id ih
  | append s owner id role content mdl now _ ih =>
    exact appendMessageOp_zero s owner id role content mdl now ih
  | chat s owner message cid provider now _ ih =>
    exact converse_zero s owner message cid provider now ih

/-- A store reached by a create followed by an appendMessage. -/
def reachedW : List Conversation :=
  (appendMessageOp (createConv [] 1 none none 0 1).2 1 1 "user" "hi" none 2).2

/-- C10 witness: the invariant evaluated on a concretely reached store. -/
theorem total_tokens_invariant_witness : allTokensZero reachedW :=
  total_tokens_invariant reachedW
    (Reachable.append (createConv [] 1 none none 0 1).2 1 1 "user" "hi" none 2
      (Reachable.create [] 1 none none 0 1 Reachable.init))
